import Mathlib

/-!
Verification of the FormSG workspace ownership service
(`src/app/modules/workspace/workspace.service.ts`) against its
natural-language specification.

The service layer is embedded directly from the TypeScript source.  The
document store and its model operations (`workspace.server.model.ts`,
the `archiveForms` operation of `admin-form.service.ts`, `handle-mongo-error.ts`) are not
part of the provided sources; those are modelled from the access
contract of the spec (spec sections 4.2, 6 and 7), as noted on each definition.

Mongoose transactions are embedded by explicit state passing: a transaction
body is a function `DbState → Except MongoRejection DbState`;
`session.withTransaction` commits the resulting state on success and keeps
the pre-transaction state on failure (rollback).  Store-level failures are
injected through an explicit `FaultSpec` oracle so that the rollback claims
can be stated for every failure pattern.
-/

deriving instance DecidableEq for Except

/-- A workspace document: identifier, owning admin, title, and the ordered
list of member form identifiers (spec section 3). -/
structure Workspace where
  id : String
  admin : String
  title : String
  formIds : List String
deriving DecidableEq, Repr

/-- The slice of a form document this service observes: its identifier,
owner and whether its status is archived (spec section 3). -/
structure Form where
  id : String
  admin : String
  archived : Bool
deriving DecidableEq, Repr

/-- The document store: the workspace collection and the form collection. -/
structure DbState where
  workspaces : List Workspace
  forms : List Form
deriving DecidableEq, Repr

/-- The Mongo filter `{ _id: workspaceId, admin: admin }` used throughout the
service: matches a workspace by id and owning admin. -/
def wsMatches (workspaceId admin : String) (w : Workspace) : Bool :=
  w.id == workspaceId && w.admin == admin

/-- Fault-injection oracle: which store primitive rejects when invoked.
`noFault` is the fault-free execution. -/
structure FaultSpec where
  failDeleteWorkspace : Bool
  failArchiveForms : Bool
  failRemoveFromWorkspace : Bool
  failRemoveFromAllWorkspaces : Bool
  failAddToWorkspace : Bool
deriving DecidableEq, Repr

def noFault : FaultSpec :=
  ⟨false, false, false, false, false⟩

/-- What a rejected store promise carries, as classified by
`transformMongoError` (modelled from spec section 7: validation faults are
distinguished from generic data-access faults). -/
inductive MongoRejection where
  | validationErr
  | genericErr
deriving DecidableEq, Repr

/-- The typed error values of the service (`core.errors.ts`,
`workspace.errors.ts`). -/
inductive ServiceError where
  | databaseError
  | databaseValidationError
  | workspaceNotFoundError
  | forbiddenWorkspaceError
deriving DecidableEq, Repr

/-- Modelled from the spec: `transformMongoError` of
`utils/handle-mongo-error.ts` is absent from the sources; spec section 7
says validation faults surface as a typed error distinct from the generic
data-access fault that wraps every other storage failure. -/
def transformMongoError : MongoRejection → ServiceError
  | .validationErr => ServiceError.databaseValidationError
  | .genericErr => ServiceError.databaseError

/-- Lifecycle of the mongoose `ClientSession` opened by a top-level service
call: whether the transaction was closed (committed or aborted) and whether
`session.endSession()` ran before the call returned. -/
structure SessionLog where
  txClosed : Bool
  sessionEnded : Bool
deriving DecidableEq, Repr

/-- Outcome of a top-level transactional service call: the returned result,
the final store state, and the session lifecycle log. -/
structure CallResult (α : Type) where
  result : Except ServiceError α
  state : DbState
  session : SessionLog
deriving Repr

namespace WorkspaceModel

/-- Embeds `WorkspaceModel.findOne({ _id: workspaceId, admin: userId })`:
first document matching the filter, if any. -/
def findOne (workspaceId admin : String) (s : DbState) : Option Workspace :=
  s.workspaces.find? (wsMatches workspaceId admin)

/-- Modelled from the spec: the transactional
`IWorkspaceModel.deleteWorkspace({workspaceId, admin, session})` of
`workspace.server.model.ts` is absent from the sources; per its declared
contract it deletes the workspace document matching `(workspaceId, admin)`
and resolves with whether a document was deleted. -/
def deleteWorkspace (workspaceId admin : String) (s : DbState) :
    Bool × DbState :=
  (s.workspaces.any (wsMatches workspaceId admin),
    { s with
      workspaces := s.workspaces.filter
        (fun w => !(wsMatches workspaceId admin w)) })

/-- Remove the given form identifiers from the membership list of one
workspace. -/
def removeForms (formIds : List String) (w : Workspace) : Workspace :=
  { w with formIds := w.formIds.filter (fun f => !(formIds.contains f)) }

/-- Modelled from the spec:
`IWorkspaceModel.removeFormIdsFromAllWorkspaces({admin, formIds, session})`
is absent from the sources; per spec section 4.2 it removes the specified
elements from the `formIds` of all documents matching the admin filter. -/
def removeFormIdsFromAllWorkspaces (admin : String) (formIds : List String)
    (s : DbState) : DbState :=
  { s with
    workspaces := s.workspaces.map
      (fun w => if w.admin == admin then removeForms formIds w else w) }

/-- Modelled from the spec:
`IWorkspaceModel.removeFormIdsFromWorkspace({admin, workspaceId, formIds,
session})` is absent from the sources; per spec section 4.2 it removes the
specified elements from the `formIds` of the workspace matching
`(workspaceId, admin)`. -/
def removeFormIdsFromWorkspace (admin workspaceId : String)
    (formIds : List String) (s : DbState) : DbState :=
  { s with
    workspaces := s.workspaces.map
      (fun w => if wsMatches workspaceId admin w then removeForms formIds w
                else w) }

/-- Set-union addition: append, in order, the elements of `add` that are not
already present (spec section 4.2: "add distinct elements"). -/
def addToSet (base add : List String) : List String :=
  add.foldl (fun acc f => if acc.contains f then acc else acc ++ [f]) base

/-- Modelled from the spec:
`IWorkspaceModel.addFormIdsToWorkspace({admin, workspaceId, formIds,
session})` is absent from the sources; per spec section 4.2 the store adds
distinct elements to the `formIds` of the workspace matching
`(workspaceId, admin)`. -/
def addFormIdsToWorkspace (admin workspaceId : String)
    (formIds : List String) (s : DbState) : DbState :=
  { s with
    workspaces := s.workspaces.map
      (fun w => if wsMatches workspaceId admin w then
                  { w with formIds := addToSet w.formIds formIds }
                else w) }

/-- Modelled from the spec: `IWorkspaceModel.getWorkspace(workspaceId,
admin)` is absent from the sources; per its declared contract it is a
filtered point lookup by `(workspaceId, admin)` resolving with the document
or null. -/
def getWorkspace (workspaceId admin : String) (s : DbState) :
    Option Workspace :=
  s.workspaces.find? (wsMatches workspaceId admin)

/-- Modelled from the spec: the count-based
`IWorkspaceModel.deleteWorkspace(workspaceId, admin, shouldDeleteForms)` of
`types/workspace.ts` is absent from the sources; per spec section 4.1 it
performs a single delete-matching-criteria operation restricted to
`(workspaceId, admin)`, optionally cascades form deletion, and resolves
with the number of documents removed. -/
def deleteWorkspaceCount (workspaceId admin : String)
    (shouldDeleteForms : Bool) (s : DbState) : Nat × DbState :=
  let matching := s.workspaces.filter (wsMatches workspaceId admin)
  let s1 := { s with
    workspaces := s.workspaces.filter
      (fun w => !(wsMatches workspaceId admin w)) }
  let s2 := if shouldDeleteForms then
      { s1 with
        forms := s1.forms.filter
          (fun f => !(matching.any (fun w => w.formIds.contains f.id))) }
    else s1
  (matching.length, s2)

/-- Embeds the truthiness check of `WorkspaceModel.exists(filter)`: whether
any workspace matches the filter. -/
def existsMatch (workspaceId admin : String) (s : DbState) : Bool :=
  s.workspaces.any (wsMatches workspaceId admin)

/-- Modelled from the spec: `IWorkspaceModel.updateWorkspaceTitle({title,
workspaceId, admin})` is absent from the sources; per spec section 4.1 it
rejects with a validation fault when the title violates the schema
(`validTitle` abstracts the schema constraint), and otherwise updates and
resolves with the workspace matched by `(workspaceId, admin)`, or null when
no document matches. -/
def updateWorkspaceTitle (validTitle : String → Bool)
    (title workspaceId admin : String) (s : DbState) :
    Except MongoRejection (Option Workspace × DbState) :=
  if !(validTitle title) then Except.error MongoRejection.validationErr
  else
    match findOne workspaceId admin s with
    | none => Except.ok (none, s)
    | some w =>
        Except.ok (some { w with title := title },
          { s with
            workspaces := s.workspaces.map
              (fun x => if wsMatches workspaceId admin x then
                          { x with title := title }
                        else x) })

end WorkspaceModel

namespace AdminFormService

/-- Modelled from the spec: `archiveForms({formIds, userId, session})` of
`admin-form.service.ts` is absent from the sources; per spec sections 2 and
6 the Form Archival Collaborator marks the given forms archived,
participating in the transaction of the caller. -/
def archiveForms (formIds : List String) (_userId : String) (s : DbState) :
    DbState :=
  { s with
    forms := s.forms.map
      (fun f => if formIds.contains f.id then { f with archived := true }
                else f) }

end AdminFormService

namespace WorkspaceService

/-- The body run under `session.withTransaction` by the transactional
`deleteWorkspace`: read the workspace via `findOne({_id, admin})`, delete
the workspace document, then — when `shouldDeleteForms` and the read
returned a document (JS: `workspaceToDelete?.formIds` is undefined exactly
when the read was null) — archive the captured form identifiers. -/
def deleteWorkspaceTransaction (fs : FaultSpec)
    (workspaceId userId : String) (shouldDeleteForms : Bool) (s : DbState) :
    Except MongoRejection DbState :=
  let workspaceToDelete := WorkspaceModel.findOne workspaceId userId s
  if fs.failDeleteWorkspace then Except.error MongoRejection.genericErr
  else
    let s1 := (WorkspaceModel.deleteWorkspace workspaceId userId s).2
    match workspaceToDelete with
    | some w =>
        if shouldDeleteForms then
          if fs.failArchiveForms then Except.error MongoRejection.genericErr
          else Except.ok (AdminFormService.archiveForms w.formIds userId s1)
        else Except.ok s1
    | none => Except.ok s1

/-- Transactional `deleteWorkspace({workspaceId, userId,
shouldDeleteForms})`: runs `deleteWorkspaceTransaction` under
`session.withTransaction`.  On success the transaction commits and the
chained `.then(() => session.endSession())` runs; on rejection
`withTransaction` aborts (state rolls back) but the `.then` continuation is
skipped, so `endSession` never runs, and `ResultAsync.fromPromise` maps the
rejection through `transformMongoError`. -/
def deleteWorkspace (fs : FaultSpec) (workspaceId userId : String)
    (shouldDeleteForms : Bool) (s : DbState) : CallResult Unit :=
  match deleteWorkspaceTransaction fs workspaceId userId shouldDeleteForms s
    with
  | Except.ok s1 => ⟨Except.ok (), s1, ⟨true, true⟩⟩
  | Except.error e => ⟨Except.error (transformMongoError e), s, ⟨true, false⟩⟩

/-- The body run under `session.withTransaction` by `moveForms`: when
`sourceWorkspaceId` is the empty string remove the form ids from all of the
workspaces of the admin, otherwise from the named source workspace; then add
them to the destination workspace. -/
def moveFormsTransaction (fs : FaultSpec)
    (userId sourceWorkspaceId destWorkspaceId : String)
    (formIds : List String) (s : DbState) : Except MongoRejection DbState :=
  let step1 : Except MongoRejection DbState :=
    if sourceWorkspaceId == "" then
      if fs.failRemoveFromAllWorkspaces then
        Except.error MongoRejection.genericErr
      else Except.ok
        (WorkspaceModel.removeFormIdsFromAllWorkspaces userId formIds s)
    else
      if fs.failRemoveFromWorkspace then
        Except.error MongoRejection.genericErr
      else Except.ok
        (WorkspaceModel.removeFormIdsFromWorkspace userId sourceWorkspaceId
          formIds s)
  step1.bind (fun s1 =>
    if fs.failAddToWorkspace then Except.error MongoRejection.genericErr
    else Except.ok
      (WorkspaceModel.addFormIdsToWorkspace userId destWorkspaceId formIds
        s1))

/-- Embeds `moveForms({userId, sourceWorkspaceId, destWorkspaceId,
formIds})`:
runs `moveFormsTransaction` under `session.withTransaction`; on success the
commit is followed by `.then(() => session.endSession())` and then by
re-reading the destination via `WorkspaceModel.getWorkspace`; on rejection
both `.then` continuations are skipped, the state rolls back, and the
rejection is mapped through `transformMongoError`. -/
def moveForms (fs : FaultSpec)
    (userId sourceWorkspaceId destWorkspaceId : String)
    (formIds : List String) (s : DbState) : CallResult (Option Workspace) :=
  match moveFormsTransaction fs userId sourceWorkspaceId destWorkspaceId
      formIds s with
  | Except.ok s1 =>
      ⟨Except.ok (WorkspaceModel.getWorkspace destWorkspaceId userId s1),
        s1, ⟨true, true⟩⟩
  | Except.error e => ⟨Except.error (transformMongoError e), s, ⟨true, false⟩⟩

/-- Embeds `updateWorkspaceTitle({workspaceId, title, userId})`: calls the
model
update with `admin := userId`, maps rejections through
`transformMongoError`, and maps a null resolution to
`WorkspaceNotFoundError`. -/
def updateWorkspaceTitle (validTitle : String → Bool)
    (workspaceId title userId : String) (s : DbState) :
    Except ServiceError Workspace × DbState :=
  match WorkspaceModel.updateWorkspaceTitle validTitle title workspaceId
      userId s with
  | Except.error e => (Except.error (transformMongoError e), s)
  | Except.ok (none, s1) =>
      (Except.error ServiceError.workspaceNotFoundError, s1)
  | Except.ok (some w, s1) => (Except.ok w, s1)

/-- Count-based `deleteWorkspace({workspaceId, userId, shouldDeleteForms})`
(the first observed service variant): calls the count-based model delete
and maps a zero count to `WorkspaceNotFoundError`, otherwise returns the
count unchanged. -/
def deleteWorkspaceCount (workspaceId userId : String)
    (shouldDeleteForms : Bool) (s : DbState) :
    Except ServiceError Nat × DbState :=
  let r := WorkspaceModel.deleteWorkspaceCount workspaceId userId
    shouldDeleteForms s
  if r.1 == 0 then (Except.error ServiceError.workspaceNotFoundError, r.2)
  else (Except.ok r.1, r.2)

/-- Embeds `verifyWorkspaceAdmin(workspaceId, userId)`: checks
`WorkspaceModel.exists({ _id: workspaceId, admin: userId })` and maps a
falsy result to `ForbiddenWorkspaceError`. -/
def verifyWorkspaceAdmin (workspaceId userId : String) (s : DbState) :
    Except ServiceError Bool :=
  if WorkspaceModel.existsMatch workspaceId userId s then Except.ok true
  else Except.error ServiceError.forbiddenWorkspaceError

end WorkspaceService

/-- Sample workspace used for concrete evaluations. -/
def W0 : Workspace := ⟨"w1", "u", "T", ["f1"]⟩

/-- Sample store: one workspace `w1` of admin `u` holding form `f1`, and
the (unarchived) form document `f1`. -/
def s0 : DbState := ⟨[W0], [⟨"f1", "u", false⟩]⟩

/-- Sample workspace `wA` of admin `u` holding form `f1`. -/
def WA : Workspace := ⟨"wA", "u", "A", ["f1"]⟩

/-- Sample destination workspace `wB` of admin `u` with no forms. -/
def WB : Workspace := ⟨"wB", "u", "B", []⟩

/-- Sample store with the two workspaces `wA` and `wB`. -/
def sAB : DbState := ⟨[WA, WB], []⟩

/-! ### Helper lemmas about the embedded store operations -/

theorem wsMatches_eq_true {workspaceId admin : String} {w : Workspace} :
    wsMatches workspaceId admin w = true ↔
      w.id = workspaceId ∧ w.admin = admin := by
  simp [wsMatches]

/-- When workspace ids are unique, `findOne` on the `(id, admin)` filter
returns exactly the member with that id and admin. -/
theorem find?_wsMatches_of_nodup {l : List Workspace} {W : Workspace}
    {workspaceId admin : String}
    (hids : (l.map Workspace.id).Nodup) (hW : W ∈ l)
    (hid : W.id = workspaceId) (hadmin : W.admin = admin) :
    l.find? (wsMatches workspaceId admin) = some W := by
  induction l with
  | nil => cases hW
  | cons a l ih =>
      have hids' : a.id ∉ l.map Workspace.id ∧
          (l.map Workspace.id).Nodup := by
        simpa [List.nodup_cons] using hids
      by_cases hpa : wsMatches workspaceId admin a = true
      · rw [List.find?_cons_of_pos _ hpa]
        rcases List.mem_cons.mp hW with h | h
        · rw [h]
        · exact absurd (List.mem_map_of_mem Workspace.id h) (by
            rw [hid, ← (wsMatches_eq_true.mp hpa).1]
            exact hids'.1)
      · rw [List.find?_cons_of_neg _ hpa]
        rcases List.mem_cons.mp hW with h | h
        · subst h
          exact absurd (wsMatches_eq_true.mpr ⟨hid, hadmin⟩) hpa
        · exact ih hids'.2 h

theorem mem_addToSet {base add : List String} {a : String} :
    a ∈ WorkspaceModel.addToSet base add ↔ a ∈ base ∨ a ∈ add := by
  induction add generalizing base with
  | nil => simp [WorkspaceModel.addToSet]
  | cons g fs ih =>
      show a ∈ WorkspaceModel.addToSet
        (if base.contains g then base else base ++ [g]) fs ↔ _
      rw [ih]
      by_cases hg : g ∈ base
      · simp only [List.contains_iff_exists_mem_beq]
        rw [if_pos ⟨g, hg, by simp⟩]
        constructor
        · rintro (h | h)
          · exact Or.inl h
          · exact Or.inr (List.mem_cons_of_mem g h)
        · rintro (h | h)
          · exact Or.inl h
          · rcases List.mem_cons.mp h with h | h
            · exact Or.inl (h ▸ hg)
            · exact Or.inr h
      · rw [if_neg (by simpa using hg)]
        simp only [List.mem_append, List.mem_singleton, List.mem_cons]
        tauto

theorem count_addToSet {base add : List String} {a : String} :
    (WorkspaceModel.addToSet base add).count a =
      if a ∈ base then base.count a else if a ∈ add then 1 else 0 := by
  induction add generalizing base with
  | nil => by_cases h : a ∈ base <;>
      simp [WorkspaceModel.addToSet, h, List.count_eq_zero]
  | cons g fs ih =>
      show (WorkspaceModel.addToSet
        (if base.contains g then base else base ++ [g]) fs).count a = _
      by_cases hg : g ∈ base
      · rw [if_pos (by simpa using hg), ih]
        by_cases ha : a ∈ base
        · rw [if_pos ha, if_pos ha]
        · rw [if_neg ha, if_neg ha]
          have hag : a ≠ g := fun h => ha (h ▸ hg)
          simp [List.mem_cons, hag]
      · rw [if_neg (by simpa using hg), ih]
        by_cases ha : a ∈ base
        · have hag : a ≠ g := fun h => hg (h ▸ ha)
          rw [if_pos (List.mem_append_left _ ha), if_pos ha,
            List.count_append]
          simp [hag, List.count_eq_zero]
        · by_cases hag : a = g
          · subst hag
            rw [if_pos (List.mem_append_right _ (by simp)),
              List.count_append, if_pos (List.mem_cons_self a fs)]
            simp [List.count_eq_zero, ha]
          · rw [if_neg (by simp [List.mem_append, ha, hag]), if_neg ha]
            simp [List.mem_cons, hag]

/-! ### Claim theorems -/

/-- C5: the count-based `deleteWorkspace` performs a single delete
restricted to `(workspaceId, admin=userId)` and returns the number of
documents removed; a zero count is surfaced as `WorkspaceNotFoundError`
and a nonzero count is returned unchanged. -/
theorem countDeleteWorkspace_spec (workspaceId userId : String)
    (shouldDeleteForms : Bool) (s : DbState) :
    (WorkspaceService.deleteWorkspaceCount workspaceId userId
        shouldDeleteForms s).1 =
      (if (s.workspaces.filter (wsMatches workspaceId userId)).length = 0
       then Except.error ServiceError.workspaceNotFoundError
       else Except.ok
         (s.workspaces.filter (wsMatches workspaceId userId)).length) ∧
    (WorkspaceService.deleteWorkspaceCount workspaceId userId
        shouldDeleteForms s).2.workspaces =
      s.workspaces.filter (fun w => !(wsMatches workspaceId userId w)) := by
  constructor
  · by_cases h :
      (s.workspaces.filter (wsMatches workspaceId userId)).length = 0 <;>
      simp [WorkspaceService.deleteWorkspaceCount,
        WorkspaceModel.deleteWorkspaceCount, h]
  · by_cases hs : shouldDeleteForms <;>
      · simp only [WorkspaceService.deleteWorkspaceCount,
          WorkspaceModel.deleteWorkspaceCount, hs, if_true, if_false,
          beq_iff_eq]
        split <;> rfl

/-- C6: `updateWorkspaceTitle` returns a validation fault when the title
violates the schema; returns `WorkspaceNotFoundError` when no workspace
matches both `workspaceId` and `admin = userId` (so a nonexistent id and a
workspace owned by someone else are indistinguishable); and on success
returns the updated workspace. -/
theorem updateWorkspaceTitle_faults (validTitle : String → Bool)
    (workspaceId title userId : String) (s : DbState) :
    (validTitle title = false →
      (WorkspaceService.updateWorkspaceTitle validTitle workspaceId title
          userId s).1 =
        Except.error ServiceError.databaseValidationError) ∧
    (validTitle title = true →
      (∀ w ∈ s.workspaces, ¬(w.id = workspaceId ∧ w.admin = userId)) →
      (WorkspaceService.updateWorkspaceTitle validTitle workspaceId title
          userId s).1 =
        Except.error ServiceError.workspaceNotFoundError) ∧
    (∀ W : Workspace, validTitle title = true →
      (s.workspaces.map Workspace.id).Nodup → W ∈ s.workspaces →
      W.id = workspaceId → W.admin = userId →
      (WorkspaceService.updateWorkspaceTitle validTitle workspaceId title
          userId s).1 =
        Except.ok { W with title := title }) := by
  refine ⟨fun hv => ?_, fun hv hn => ?_, fun W hv hids hW hid hadmin => ?_⟩
  · simp [WorkspaceService.updateWorkspaceTitle,
      WorkspaceModel.updateWorkspaceTitle, hv, transformMongoError]
  · have hfind : s.workspaces.find? (wsMatches workspaceId userId) = none :=
      List.find?_eq_none.mpr (fun x hx hpx =>
        hn x hx (wsMatches_eq_true.mp hpx))
    simp [WorkspaceService.updateWorkspaceTitle,
      WorkspaceModel.updateWorkspaceTitle, WorkspaceModel.findOne, hv, hfind]
  · have hfind : s.workspaces.find? (wsMatches workspaceId userId) = some W :=
      find?_wsMatches_of_nodup hids hW hid hadmin
    simp [WorkspaceService.updateWorkspaceTitle,
      WorkspaceModel.updateWorkspaceTitle, WorkspaceModel.findOne, hv, hfind]

/-- C7: `verifyWorkspaceAdmin` succeeds with `true` exactly when a
workspace matching both `_id = workspaceId` and `admin = userId` exists,
and otherwise fails with `ForbiddenWorkspaceError`; in particular every
caller that is not the admin of the (unique) workspace with that id gets
the forbidden fault. -/
theorem verifyWorkspaceAdmin_spec (workspaceId userId : String)
    (s : DbState) :
    ((WorkspaceService.verifyWorkspaceAdmin workspaceId userId s =
        Except.ok true) ↔
      ∃ w ∈ s.workspaces, w.id = workspaceId ∧ w.admin = userId) ∧
    ((¬ ∃ w ∈ s.workspaces, w.id = workspaceId ∧ w.admin = userId) →
      WorkspaceService.verifyWorkspaceAdmin workspaceId userId s =
        Except.error ServiceError.forbiddenWorkspaceError) ∧
    (∀ W : Workspace, (s.workspaces.map Workspace.id).Nodup →
      W ∈ s.workspaces → W.id = workspaceId → userId ≠ W.admin →
      WorkspaceService.verifyWorkspaceAdmin workspaceId userId s =
        Except.error ServiceError.forbiddenWorkspaceError) := by
  have hany : (WorkspaceModel.existsMatch workspaceId userId s = true) ↔
      ∃ w ∈ s.workspaces, w.id = workspaceId ∧ w.admin = userId := by
    simp only [WorkspaceModel.existsMatch, List.any_eq_true,
      wsMatches_eq_true]
  refine ⟨?_, fun hn => ?_, fun W hids hW hid hadmin => ?_⟩
  · constructor
    · intro h
      by_cases hm : WorkspaceModel.existsMatch workspaceId userId s
      · exact hany.mp hm
      · simp [WorkspaceService.verifyWorkspaceAdmin, hm] at h
    · intro h
      simp [WorkspaceService.verifyWorkspaceAdmin, hany.mpr h]
  · have hm : WorkspaceModel.existsMatch workspaceId userId s = false := by
      by_contra hc
      exact hn (hany.mp (by simpa using hc))
    simp [WorkspaceService.verifyWorkspaceAdmin, hm]
  · have hm : WorkspaceModel.existsMatch workspaceId userId s = false := by
      by_contra hc
      obtain ⟨w, hw, hwid, hwadmin⟩ := hany.mp (by simpa using hc)
      have : w = W := List.inj_on_of_nodup_map hids hw hW (by rw [hwid, hid])
      exact hadmin (by rw [← hwadmin, this])
    simp [WorkspaceService.verifyWorkspaceAdmin, hm]

/-- C10: the transactional `deleteWorkspace` never surfaces a not-found
fault; when no workspace matches `(workspaceId, admin=userId)` it still
succeeds with `()`, skips the archival step entirely even when
`shouldDeleteForms` is true, and leaves the store (workspaces and forms)
unchanged. -/
theorem deleteWorkspaceTx_missing_ok (workspaceId userId : String)
    (shouldDeleteForms : Bool) (s : DbState)
    (hnone : ∀ w ∈ s.workspaces, ¬(w.id = workspaceId ∧ w.admin = userId)) :
    (WorkspaceService.deleteWorkspace noFault workspaceId userId
        shouldDeleteForms s).result = Except.ok () ∧
    (WorkspaceService.deleteWorkspace noFault workspaceId userId
        shouldDeleteForms s).state = s ∧
    (∀ (fs : FaultSpec) (b : Bool) (s' : DbState),
      (WorkspaceService.deleteWorkspace fs workspaceId userId b s').result ≠
        Except.error ServiceError.workspaceNotFoundError) := by
  have hfind : s.workspaces.find? (wsMatches workspaceId userId) = none :=
    List.find?_eq_none.mpr (fun x hx hpx =>
      hnone x hx (wsMatches_eq_true.mp hpx))
  have hfilter : s.workspaces.filter
      (fun w => !(wsMatches workspaceId userId w)) = s.workspaces :=
    List.filter_eq_self.mpr (fun w hw => by
      simpa using fun hc => hnone w hw (wsMatches_eq_true.mp hc))
  refine ⟨?_, ?_, fun fs b s' => ?_⟩
  · simp [WorkspaceService.deleteWorkspace,
      WorkspaceService.deleteWorkspaceTransaction, WorkspaceModel.findOne,
      hfind, noFault]
  · simp [WorkspaceService.deleteWorkspace,
      WorkspaceService.deleteWorkspaceTransaction, WorkspaceModel.findOne,
      WorkspaceModel.deleteWorkspace, hfind, hfilter, noFault]
  · unfold WorkspaceService.deleteWorkspace
    rcases h : WorkspaceService.deleteWorkspaceTransaction fs workspaceId
        userId b s' with e | s1
    · cases e <;> simp [h, transformMongoError]
    · simp [h]

/-- C8: session lifecycle of the transactional calls.  On the fault-free
path the transaction commits and `session.endSession()` runs; but when the
transaction rejects, `withTransaction` aborts the transaction while the
`.then(() => session.endSession())` continuation is skipped, so the call
returns a data-access fault with the session never ended — the session is
leaked on every failure path of both `deleteWorkspace` and `moveForms`. -/
theorem deleteWorkspace_session_leak :
    (WorkspaceService.deleteWorkspace noFault "w1" "u" true s0).session =
      ⟨true, true⟩ ∧
    (WorkspaceService.deleteWorkspace ⟨true, false, false, false, false⟩
        "w1" "u" true s0).result =
      Except.error ServiceError.databaseError ∧
    (WorkspaceService.deleteWorkspace ⟨true, false, false, false, false⟩
        "w1" "u" true s0).session.txClosed = true ∧
    (WorkspaceService.deleteWorkspace ⟨true, false, false, false, false⟩
        "w1" "u" true s0).session.sessionEnded = false ∧
    (WorkspaceService.moveForms ⟨false, false, true, false, false⟩
        "u" "w1" "w2" ["f1"] s0).session.sessionEnded = false := by
  decide

/-- C9 counterexample: a `moveForms` call that succeeds while its success
value is null.  With an empty store the transaction commits (both membership
updates match no document) and the post-commit re-read of the destination
returns null, so the success value is `none`, contradicting the claim that
every successful call returns a non-null workspace document. -/
theorem moveForms_null_success :
    (WorkspaceService.moveForms noFault "u" "" "w9" ["f1"]
        ⟨[], []⟩).result = Except.ok none ∧
    (WorkspaceService.moveForms noFault "u" "" "w9" ["f1"]
        ⟨[], []⟩).result.isOk = true := by
  decide

/-- C9 (amended): every successful `moveForms` returns exactly
`getWorkspace(destWorkspaceId, userId)` re-read from the post-commit
state — the refreshed destination document whenever one matching
`(destWorkspaceId, admin=userId)` exists after the move, and null
otherwise. -/
theorem moveForms_returns_refreshed (fs : FaultSpec)
    (userId src dest : String) (formIds : List String) (s : DbState)
    (h : (WorkspaceService.moveForms fs userId src dest formIds s).result.isOk
      = true) :
    (WorkspaceService.moveForms fs userId src dest formIds s).result =
      Except.ok (WorkspaceModel.getWorkspace dest userId
        (WorkspaceService.moveForms fs userId src dest formIds s).state) ∧
    (∀ W : Workspace,
      ((WorkspaceService.moveForms fs userId src dest formIds
          s).state.workspaces.map Workspace.id).Nodup →
      W ∈ (WorkspaceService.moveForms fs userId src dest formIds
          s).state.workspaces →
      W.id = dest → W.admin = userId →
      (WorkspaceService.moveForms fs userId src dest formIds s).result =
        Except.ok (some W)) := by
  rcases htx : WorkspaceService.moveFormsTransaction fs userId src dest
      formIds s with e | s1
  · exact absurd h (by simp [WorkspaceService.moveForms, htx, Except.isOk, Except.toBool])
  · constructor
    · simp [WorkspaceService.moveForms, htx]
    · intro W hids hW hid hadmin
      have hstate : (WorkspaceService.moveForms fs userId src dest formIds
          s).state = s1 := by simp [WorkspaceService.moveForms, htx]
      rw [hstate] at hids hW
      have hfind : s1.workspaces.find? (wsMatches dest userId) = some W :=
        find?_wsMatches_of_nodup hids hW hid hadmin
      simp [WorkspaceService.moveForms, htx, WorkspaceModel.getWorkspace,
        hfind]

/-- C9 witness: the amended theorem applied at a concrete successful
call. -/
theorem moveForms_returns_refreshed_witness :
    (WorkspaceService.moveForms noFault "u" "" "w1" ["f1"] s0).result =
      Except.ok (WorkspaceModel.getWorkspace "w1" "u"
        (WorkspaceService.moveForms noFault "u" "" "w1" ["f1"] s0).state) :=
  (moveForms_returns_refreshed noFault "u" "" "w1" ["f1"] s0 (by decide)).1

/-- C2: inside one `moveForms` transaction the removal-from-source(s) step
runs first and the addition-to-destination step runs second (the committed
state is the addition applied to the result of the removal), and when
either step rejects the whole call returns a data-access fault with the
store rolled back unchanged. -/
theorem moveForms_ordered_rollback (fs : FaultSpec)
    (userId src dest : String) (formIds : List String) (s : DbState) :
    ((src = "" → fs.failRemoveFromAllWorkspaces = false) →
     (src ≠ "" → fs.failRemoveFromWorkspace = false) →
     fs.failAddToWorkspace = false →
     (WorkspaceService.moveForms fs userId src dest formIds
         s).result.isOk = true ∧
     (WorkspaceService.moveForms fs userId src dest formIds s).state =
       WorkspaceModel.addFormIdsToWorkspace userId dest formIds
         (if src = "" then
            WorkspaceModel.removeFormIdsFromAllWorkspaces userId formIds s
          else
            WorkspaceModel.removeFormIdsFromWorkspace userId src formIds
              s)) ∧
    (((src = "" ∧ fs.failRemoveFromAllWorkspaces = true) ∨
      (src ≠ "" ∧ fs.failRemoveFromWorkspace = true) ∨
      fs.failAddToWorkspace = true) →
     (WorkspaceService.moveForms fs userId src dest formIds s).result =
       Except.error ServiceError.databaseError ∧
     (WorkspaceService.moveForms fs userId src dest formIds s).state = s) := by
  by_cases hsrc : src = ""
  · subst hsrc
    constructor
    · intro h1 _ h3
      simp [WorkspaceService.moveForms, WorkspaceService.moveFormsTransaction,
        h1 rfl, h3, Except.bind, Except.isOk, Except.toBool]
    · rintro (⟨-, hfail⟩ | ⟨hne, -⟩ | hfail)
      · simp [WorkspaceService.moveForms,
          WorkspaceService.moveFormsTransaction, hfail, transformMongoError,
          Except.bind]
      · exact absurd rfl hne
      · by_cases h2 : fs.failRemoveFromAllWorkspaces <;>
          simp [WorkspaceService.moveForms,
            WorkspaceService.moveFormsTransaction, h2, hfail,
            transformMongoError, Except.bind]
  · constructor
    · intro _ h2 h3
      simp [WorkspaceService.moveForms, WorkspaceService.moveFormsTransaction,
        hsrc, h2 hsrc, h3, Except.bind, Except.isOk, Except.toBool]
    · rintro (⟨heq, -⟩ | ⟨-, hfail⟩ | hfail)
      · exact absurd heq hsrc
      · simp [WorkspaceService.moveForms,
          WorkspaceService.moveFormsTransaction, hsrc, hfail,
          transformMongoError, Except.bind]
      · by_cases h2 : fs.failRemoveFromWorkspace <;>
          simp [WorkspaceService.moveForms,
            WorkspaceService.moveFormsTransaction, hsrc, h2, hfail,
            transformMongoError, Except.bind]

/-- C2 witness: the order/rollback theorem applied at a concrete
fault-free call and at a concrete call whose addition step fails. -/
theorem moveForms_ordered_rollback_witness :
    (WorkspaceService.moveForms noFault "u" "w1" "w2" ["f1"]
        s0).result.isOk = true ∧
    (WorkspaceService.moveForms ⟨false, false, false, false, true⟩
        "u" "w1" "w2" ["f1"] s0).state = s0 :=
  ⟨((moveForms_ordered_rollback noFault "u" "w1" "w2" ["f1"] s0).1
      (fun h => absurd h (by decide)) (fun _ => rfl) rfl).1,
    ((moveForms_ordered_rollback ⟨false, false, false, false, true⟩
        "u" "w1" "w2" ["f1"] s0).2 (Or.inr (Or.inr rfl))).2⟩

/-- C6 witness: the title-update fault theorem applied at a concrete
invalid title, a concrete unmatched workspace, and a concrete success. -/
theorem updateWorkspaceTitle_faults_witness :
    (WorkspaceService.updateWorkspaceTitle (fun t => !t.isEmpty)
        "w1" "" "u" s0).1 =
      Except.error ServiceError.databaseValidationError ∧
    (WorkspaceService.updateWorkspaceTitle (fun t => !t.isEmpty)
        "w9" "New" "u" s0).1 =
      Except.error ServiceError.workspaceNotFoundError ∧
    (WorkspaceService.updateWorkspaceTitle (fun t => !t.isEmpty)
        "w1" "New" "u" s0).1 =
      Except.ok { W0 with title := "New" } :=
  ⟨(updateWorkspaceTitle_faults (fun t => !t.isEmpty) "w1" "" "u" s0).1
      (by decide),
    (updateWorkspaceTitle_faults (fun t => !t.isEmpty) "w9" "New" "u" s0).2.1
      (by decide) (by decide),
    (updateWorkspaceTitle_faults (fun t => !t.isEmpty) "w1" "New" "u" s0).2.2
      W0 (by decide) (by decide) (by decide) rfl rfl⟩

/-- C7 witness: a non-admin caller on an existing workspace receives the
forbidden fault. -/
theorem verifyWorkspaceAdmin_spec_witness :
    WorkspaceService.verifyWorkspaceAdmin "w1" "u2" s0 =
      Except.error ServiceError.forbiddenWorkspaceError :=
  (verifyWorkspaceAdmin_spec "w1" "u2" s0).2.2 W0 (by decide) (by decide)
    rfl (by decide)

/-- C10 witness: the transactional delete on an unmatched workspace id
succeeds and leaves the store unchanged. -/
theorem deleteWorkspaceTx_missing_ok_witness :
    (WorkspaceService.deleteWorkspace noFault "w9" "u" true s0).result =
      Except.ok () ∧
    (WorkspaceService.deleteWorkspace noFault "w9" "u" true s0).state = s0 :=
  ⟨(deleteWorkspaceTx_missing_ok "w9" "u" true s0 (by decide)).1,
    (deleteWorkspaceTx_missing_ok "w9" "u" true s0 (by decide)).2.1⟩

/-- C1: atomicity of the transactional `deleteWorkspace` with
`shouldDeleteForms = true` on a workspace `W` owned by `userId`: when
neither step fails the call succeeds, the workspace no longer exists and
every form in `W.formIds` is archived; when the workspace-deletion step or
the archival step fails, the call returns a data-access fault and the
store is exactly the initial one (neither effect persists). -/
theorem deleteWorkspace_atomic (fs : FaultSpec) (workspaceId userId : String)
    (s : DbState) (W : Workspace)
    (hids : (s.workspaces.map Workspace.id).Nodup)
    (hW : W ∈ s.workspaces) (hid : W.id = workspaceId)
    (hadmin : W.admin = userId) :
    (fs.failDeleteWorkspace = false → fs.failArchiveForms = false →
      (WorkspaceService.deleteWorkspace fs workspaceId userId true
          s).result = Except.ok () ∧
      (∀ w ∈ (WorkspaceService.deleteWorkspace fs workspaceId userId true
          s).state.workspaces, ¬(w.id = workspaceId ∧ w.admin = userId)) ∧
      (∀ f ∈ (WorkspaceService.deleteWorkspace fs workspaceId userId true
          s).state.forms, f.id ∈ W.formIds → f.archived = true)) ∧
    ((fs.failDeleteWorkspace = true ∨ fs.failArchiveForms = true) →
      (WorkspaceService.deleteWorkspace fs workspaceId userId true
          s).result = Except.error ServiceError.databaseError ∧
      (WorkspaceService.deleteWorkspace fs workspaceId userId true
          s).state = s) := by
  have hfind : s.workspaces.find? (wsMatches workspaceId userId) = some W :=
    find?_wsMatches_of_nodup hids hW hid hadmin
  constructor
  · intro h1 h2
    have htx : WorkspaceService.deleteWorkspaceTransaction fs workspaceId
        userId true s = Except.ok (AdminFormService.archiveForms W.formIds
          userId ⟨s.workspaces.filter
            (fun w => !(wsMatches workspaceId userId w)), s.forms⟩) := by
      simp [WorkspaceService.deleteWorkspaceTransaction,
        WorkspaceModel.findOne, WorkspaceModel.deleteWorkspace, hfind, h1,
        h2]
    refine ⟨?_, ?_, ?_⟩
    · simp [WorkspaceService.deleteWorkspace, htx]
    · intro w hw
      simp only [WorkspaceService.deleteWorkspace, htx,
        AdminFormService.archiveForms] at hw
      have hw2 := (List.mem_filter.mp hw).2
      intro hc
      rw [wsMatches_eq_true.mpr hc] at hw2
      exact absurd hw2 (by simp)
    · intro f hf hfid
      simp only [WorkspaceService.deleteWorkspace, htx,
        AdminFormService.archiveForms] at hf
      obtain ⟨g, hg, hfg⟩ := List.mem_map.mp hf
      by_cases hc : W.formIds.contains g.id
      · rw [← hfg, if_pos hc]
      · rw [← hfg] at hfid ⊢
        rw [if_neg (by simpa using hc)] at hfid ⊢
        exact absurd hfid (by simpa using hc)
  · intro hfail
    have htx : WorkspaceService.deleteWorkspaceTransaction fs workspaceId
        userId true s = Except.error MongoRejection.genericErr := by
      rcases hfail with h | h
      · simp [WorkspaceService.deleteWorkspaceTransaction, h]
      · by_cases h1 : fs.failDeleteWorkspace
        · simp [WorkspaceService.deleteWorkspaceTransaction, h1]
        · simp [WorkspaceService.deleteWorkspaceTransaction,
            WorkspaceModel.findOne, hfind, h, h1]
    constructor <;>
      simp [WorkspaceService.deleteWorkspace, htx, transformMongoError]

/-- C1 witness: the atomicity theorem applied at a concrete fault-free
call and at a concrete call whose archival step fails. -/
theorem deleteWorkspace_atomic_witness :
    (WorkspaceService.deleteWorkspace noFault "w1" "u" true s0).result =
      Except.ok () ∧
    (WorkspaceService.deleteWorkspace ⟨false, true, false, false, false⟩
        "w1" "u" true s0).state = s0 :=
  ⟨((deleteWorkspace_atomic noFault "w1" "u" s0 W0 (by decide) (by decide)
      rfl rfl).1 rfl rfl).1,
    ((deleteWorkspace_atomic ⟨false, true, false, false, false⟩ "w1" "u" s0
        W0 (by decide) (by decide) rfl rfl).2 (Or.inr rfl)).2⟩

/-- C3: `moveForms` with an empty `sourceWorkspaceId` removes the moved
form identifiers from every workspace owned by `userId` before adding them
to the destination (a non-empty `sourceWorkspaceId` instead removes only
from the workspace matching `(sourceWorkspaceId, admin=userId)`): for `f1`
lying in some other workspace `W` of the admin and any `f2`, after the
call the destination contains both `f1` and `f2` and `f1` is gone from
`W`. -/
theorem moveForms_emptySource_movesAll (userId destId f1 f2 : String)
    (s : DbState) (W D : Workspace)
    (hids : (s.workspaces.map Workspace.id).Nodup)
    (hD : D ∈ s.workspaces) (hDid : D.id = destId)
    (hDadmin : D.admin = userId)
    (hW : W ∈ s.workspaces) (hWadmin : W.admin = userId)
    (hWne : W.id ≠ destId) (hf1 : f1 ∈ W.formIds) :
    (WorkspaceService.moveForms noFault userId "" destId [f1, f2]
        s).result.isOk = true ∧
    (∀ src : String, src ≠ "" →
      (WorkspaceService.moveForms noFault userId src destId [f1, f2]
          s).state =
        WorkspaceModel.addFormIdsToWorkspace userId destId [f1, f2]
          (WorkspaceModel.removeFormIdsFromWorkspace userId src [f1, f2]
            s)) ∧
    ∀ w ∈ (WorkspaceService.moveForms noFault userId "" destId [f1, f2]
        s).state.workspaces,
      (w.id = destId → f1 ∈ w.formIds ∧ f2 ∈ w.formIds) ∧
      (w.id = W.id → f1 ∉ w.formIds) := by
  have hmain : (WorkspaceService.moveForms noFault userId "" destId [f1, f2]
      s).state = WorkspaceModel.addFormIdsToWorkspace userId destId [f1, f2]
        (WorkspaceModel.removeFormIdsFromAllWorkspaces userId [f1, f2]
          s) := by
    simp [WorkspaceService.moveForms, WorkspaceService.moveFormsTransaction,
      noFault, Except.bind]
  refine ⟨?_, ?_, ?_⟩
  · simp [WorkspaceService.moveForms, WorkspaceService.moveFormsTransaction,
      noFault, Except.bind, Except.isOk, Except.toBool]
  · intro src hsrc
    simp [WorkspaceService.moveForms, WorkspaceService.moveFormsTransaction,
      noFault, hsrc, Except.bind]
  · intro w hw
    rw [hmain] at hw
    simp only [WorkspaceModel.addFormIdsToWorkspace,
      WorkspaceModel.removeFormIdsFromAllWorkspaces, List.map_map,
      List.mem_map, Function.comp] at hw
    obtain ⟨x, hx, hxw⟩ := hw
    have hwid_eq : w.id = x.id := by
      rw [← hxw]
      split <;> split <;> rfl
    constructor
    · intro hwid
      have hxD : x = D := List.inj_on_of_nodup_map hids hx hD
        (by rw [← hwid_eq, hwid, hDid])
      subst hxD
      rw [if_pos (show (x.admin == userId) = true by simp [hDadmin])] at hxw
      rw [if_pos (show wsMatches destId userId
        (WorkspaceModel.removeForms [f1, f2] x) = true from
        wsMatches_eq_true.mpr ⟨hDid, hDadmin⟩)] at hxw
      rw [← hxw]
      exact ⟨mem_addToSet.mpr (Or.inr (by simp)),
        mem_addToSet.mpr (Or.inr (by simp))⟩
    · intro hwidW
      have hxW : x = W := List.inj_on_of_nodup_map hids hx hW
        (by rw [← hwid_eq, hwidW])
      subst hxW
      rw [if_pos (show (x.admin == userId) = true by simp [hWadmin])] at hxw
      rw [if_neg (show ¬(wsMatches destId userId
          (WorkspaceModel.removeForms [f1, f2] x) = true) by
        simp [wsMatches, WorkspaceModel.removeForms, hWne])] at hxw
      rw [← hxw]
      intro hmem
      have hnc := (List.mem_filter.mp hmem).2
      simp at hnc

/-- C3 witness: the empty-source move theorem applied at the concrete
scenario of the spec (`f1` in another workspace of the admin, `f2` in
none): in the final store the destination holds both forms and the old
workspace holds neither. -/
theorem moveForms_emptySource_movesAll_witness :
    (⟨"wB", "u", "B", ["f1", "f2"]⟩ : Workspace) ∈
      (WorkspaceService.moveForms noFault "u" "" "wB" ["f1", "f2"]
        sAB).state.workspaces ∧
    (⟨"wA", "u", "A", []⟩ : Workspace) ∈
      (WorkspaceService.moveForms noFault "u" "" "wB" ["f1", "f2"]
        sAB).state.workspaces ∧
    "f1" ∈ (⟨"wB", "u", "B", ["f1", "f2"]⟩ : Workspace).formIds ∧
    "f2" ∈ (⟨"wB", "u", "B", ["f1", "f2"]⟩ : Workspace).formIds ∧
    "f1" ∉ (⟨"wA", "u", "A", []⟩ : Workspace).formIds := by
  have h := (moveForms_emptySource_movesAll "u" "wB" "f1" "f2" sAB WA WB
    (by decide) (by decide) rfl rfl (by decide) rfl (by decide)
    (by decide)).2.2
  have hB := h ⟨"wB", "u", "B", ["f1", "f2"]⟩ (by decide)
  have hA := h ⟨"wA", "u", "A", []⟩ (by decide)
  exact ⟨by decide, by decide, (hB.1 rfl).1, (hB.1 rfl).2, hA.2 rfl⟩

/-- C4: when a moved form identifier `f` is already present in the
destination workspace (whose membership list is duplicate-free, as the
data model assumes), a successful `moveForms` leaves exactly one
occurrence of `f` in the `formIds` of the destination — the set-union
addition of `addFormIdsToWorkspace` never creates a duplicate
entry. -/
theorem addFormIds_no_duplicates (userId src destId f : String)
    (formIds : List String) (s : DbState) (D : Workspace)
    (hids : (s.workspaces.map Workspace.id).Nodup)
    (hD : D ∈ s.workspaces) (hDid : D.id = destId)
    (hDadmin : D.admin = userId) (hdup : D.formIds.Nodup)
    (hfD : f ∈ D.formIds) (hfIn : f ∈ formIds) :
    (WorkspaceService.moveForms noFault userId src destId formIds
        s).result.isOk = true ∧
    ∀ w ∈ (WorkspaceService.moveForms noFault userId src destId formIds
        s).state.workspaces,
      w.id = destId → w.formIds.count f = 1 := by
  have hcount_removed : (WorkspaceModel.addToSet
      ((WorkspaceModel.removeForms formIds D).formIds) formIds).count f
        = 1 := by
    have hnb : f ∉ (WorkspaceModel.removeForms formIds D).formIds := by
      simp [WorkspaceModel.removeForms, hfIn]
    rw [count_addToSet, if_neg hnb, if_pos hfIn]
  have hcount_kept : (WorkspaceModel.addToSet D.formIds formIds).count f
      = 1 := by
    rw [count_addToSet, if_pos hfD]
    exact List.count_eq_one_of_mem hdup hfD
  by_cases hsrc : src = ""
  · subst hsrc
    constructor
    · simp [WorkspaceService.moveForms,
        WorkspaceService.moveFormsTransaction, noFault, Except.bind,
        Except.isOk, Except.toBool]
    · intro w hw
      have hmain : (WorkspaceService.moveForms noFault userId "" destId
          formIds s).state =
        WorkspaceModel.addFormIdsToWorkspace userId destId formIds
          (WorkspaceModel.removeFormIdsFromAllWorkspaces userId formIds
            s) := by
        simp [WorkspaceService.moveForms,
          WorkspaceService.moveFormsTransaction, noFault, Except.bind]
      rw [hmain] at hw
      simp only [WorkspaceModel.addFormIdsToWorkspace,
        WorkspaceModel.removeFormIdsFromAllWorkspaces, List.map_map,
        List.mem_map, Function.comp] at hw
      obtain ⟨x, hx, hxw⟩ := hw
      have hwid_eq : w.id = x.id := by
        rw [← hxw]
        split <;> split <;> rfl
      intro hwid
      have hxD : x = D := List.inj_on_of_nodup_map hids hx hD
        (by rw [← hwid_eq, hwid, hDid])
      subst hxD
      rw [if_pos (show (x.admin == userId) = true by simp [hDadmin])] at hxw
      rw [if_pos (show wsMatches destId userId
        (WorkspaceModel.removeForms formIds x) = true from
        wsMatches_eq_true.mpr ⟨hDid, hDadmin⟩)] at hxw
      rw [← hxw]
      exact hcount_removed
  · constructor
    · simp [WorkspaceService.moveForms,
        WorkspaceService.moveFormsTransaction, noFault, hsrc, Except.bind,
        Except.isOk, Except.toBool]
    · intro w hw
      have hmain : (WorkspaceService.moveForms noFault userId src destId
          formIds s).state =
        WorkspaceModel.addFormIdsToWorkspace userId destId formIds
          (WorkspaceModel.removeFormIdsFromWorkspace userId src formIds
            s) := by
        simp [WorkspaceService.moveForms,
          WorkspaceService.moveFormsTransaction, noFault, hsrc, Except.bind]
      rw [hmain] at hw
      simp only [WorkspaceModel.addFormIdsToWorkspace,
        WorkspaceModel.removeFormIdsFromWorkspace, List.map_map,
        List.mem_map, Function.comp] at hw
      obtain ⟨x, hx, hxw⟩ := hw
      have hwid_eq : w.id = x.id := by
        rw [← hxw]
        split <;> split <;> rfl
      intro hwid
      have hxD : x = D := List.inj_on_of_nodup_map hids hx hD
        (by rw [← hwid_eq, hwid, hDid])
      subst hxD
      by_cases hm : wsMatches src userId x = true
      · rw [if_pos hm] at hxw
        rw [if_pos (show wsMatches destId userId
          (WorkspaceModel.removeForms formIds x) = true from
          wsMatches_eq_true.mpr ⟨hDid, hDadmin⟩)] at hxw
        rw [← hxw]
        exact hcount_removed
      · rw [if_neg hm] at hxw
        rw [if_pos (show wsMatches destId userId x = true from
          wsMatches_eq_true.mpr ⟨hDid, hDadmin⟩)] at hxw
        rw [← hxw]
        exact hcount_kept

/-- C4 witness: moving `f1` into a workspace that already holds `f1`
leaves a single occurrence in the destination document of the final
store. -/
theorem addFormIds_no_duplicates_witness :
    (⟨"w1", "u", "T", ["f1"]⟩ : Workspace) ∈
      (WorkspaceService.moveForms noFault "u" "" "w1" ["f1"]
        s0).state.workspaces ∧
    ((⟨"w1", "u", "T", ["f1"]⟩ : Workspace).formIds.count "f1") = 1 := by
  have h := (addFormIds_no_duplicates "u" "" "w1" "f1" ["f1"] s0 W0
    (by decide) (by decide) rfl rfl (by decide) (by decide) (by decide)).2
  exact ⟨by decide, h ⟨"w1", "u", "T", ["f1"]⟩ (by decide) rfl⟩
